import Mathlib

/-
Verification development for the luma.gl GPU query / animation-loop subsystem.

The Query class (webgl2 query wrapper), the AnimationLoop class, and the
scenegraph Group class are embedded from the JavaScript source.  The query
manager (utils/query-manager) is not part of the provided sources; its
operations are modelled from the specification, as marked on each definition.

State is passed explicitly: a Query's interaction with the WebGL context is
recorded as a trace of hardware calls, and callback invocations (onComplete /
onError) are recorded as a trace of callback events.
-/

/-- GL enum: elapsed time in nanoseconds (EXT_disjoint_timer_query). -/
def GL_TIME_ELAPSED_EXT : Nat := 0x88bf

/-- GL enum: query result parameter name. -/
def GL_QUERY_RESULT : Nat := 0x8866

/-- GL enum: whether the query result is available. -/
def GL_QUERY_RESULT_AVAILABLE : Nat := 0x8867

/-- Error message registered with the query manager for disjoint GPU events. -/
def ERR_GPU_DISJOINT : String := "Disjoint GPU operation invalidated timer queries"

/-- A callback invocation observed by the application: either `onComplete` or
`onError` of the query identified by `qid`. -/
inductive CallbackEvent where
  | complete (qid : Nat)
  | error (qid : Nat) (message : String)
deriving DecidableEq

/-- A hardware (WebGL) call issued by a Query. -/
inductive GLCall where
  | beginQuery (target : Nat)
  | endQuery (target : Nat)
  | getQueryParameter (pname : Nat)
deriving DecidableEq

/-- Modelled from the spec: the query manager's state.  The source file
`utils/query-manager` is not among the provided sources; per the spec the
manager keeps a `pendingQueries` set of Query objects (here: query ids), each
paired with an unresolved callback pair. -/
structure Manager where
  pending : List Nat
deriving DecidableEq

/-- Modelled from the spec: `queryManager.beginQuery(query, onComplete, onError)`
adds the query to the pending set; an existing entry for the same query is
preempted (replaced), its callbacks dropped without invocation. -/
def Manager.beginQuery (m : Manager) (qid : Nat) : Manager :=
  { pending := m.pending.filter (fun x => x != qid) ++ [qid] }

/-- Modelled from the spec: `queryManager.rejectQuery(query, message)` invokes
the registered `onError` with `message` and removes the entry; rejecting an
absent query is a no-op. -/
def Manager.rejectQuery (m : Manager) (qid : Nat) (message : String) :
    Manager × List CallbackEvent :=
  if qid ∈ m.pending then
    ({ pending := m.pending.filter (fun x => x != qid) }, [CallbackEvent.error qid message])
  else (m, [])

/-- Modelled from the spec: `queryManager.cancelQuery(query)` removes the entry
without invoking either callback. -/
def Manager.cancelQuery (m : Manager) (qid : Nat) : Manager :=
  { pending := m.pending.filter (fun x => x != qid) }

/-- The invalidator registration data: `queryManager.setInvalidator` is called
at module load with `errorMessage: ERR_GPU_DISJOINT` and a `checkInvalid`
predicate reading the context-global disjoint flag (a destructive read). -/
structure Invalidator where
  errorMessage : String

/-- The invalidator registered for the Query type at module load. -/
def registeredInvalidator : Invalidator :=
  { errorMessage := ERR_GPU_DISJOINT }

/-- Modelled from the spec: `queryManager.poll(gl)` checks the registered
type's disjoint-state predicate (`disjoint` is the value the destructive read
of the GPU disjoint flag returned); if disjoint, rejects every pending query of
that type with the registered error message and removes them from the pending
set; otherwise does nothing. -/
def Manager.poll (m : Manager) (disjoint : Bool) : Manager × List CallbackEvent :=
  if disjoint then
    ({ pending := [] },
      m.pending.map (fun qid => CallbackEvent.error qid registeredInvalidator.errorMessage))
  else (m, [])

/-- Mutable state of one Query instance: `target` is the GL target of the
currently open interval (null when none is open), `queryPending` is true
between a successful `end` and the first successful result read. -/
structure QueryState where
  target : Option Nat
  queryPending : Bool
deriving DecidableEq

/-- Combined state of one Query, the query manager, the trace of hardware
calls issued, and the trace of callback invocations. -/
structure QuerySystem where
  q : QueryState
  mgr : Manager
  glCalls : List GLCall
  events : List CallbackEvent
deriving DecidableEq

/-- Embeds `Query.begin(target)`.  `qid` identifies this Query instance in the
manager's pending set; `glThrows` tells whether the hardware `gl.beginQuery`
call throws (e.g. the extension is unsupported). -/
def Query.begin (qid : Nat) (s : QuerySystem) (target : Nat) (glThrows : Bool) :
    QuerySystem :=
  if s.q.queryPending then s
  else
    let s1 : QuerySystem :=
      { s with mgr := Manager.beginQuery s.mgr qid,
               q := { s.q with target := some target } }
    if glThrows then
      let r := Manager.rejectQuery s1.mgr qid "Query not supported"
      { s1 with mgr := r.1, events := s1.events ++ r.2 }
    else
      { s1 with glCalls := s1.glCalls ++ [GLCall.beginQuery target] }

/-- Embeds `Query.end()`: a no-op while a result is pending; otherwise, if an
interval is open, issues the hardware end call, clears `target` and sets
`queryPending`. -/
def Query.«end» (s : QuerySystem) : QuerySystem :=
  if s.q.queryPending then s
  else
    match s.q.target with
    | some t =>
      { s with q := { target := none, queryPending := true },
               glCalls := s.glCalls ++ [GLCall.endQuery t] }
    | none => s

/-- Embeds `Query.cancel()`: forces `end()` then tells the manager to drop the
pending entry. -/
def Query.cancel (qid : Nat) (s : QuerySystem) : QuerySystem :=
  let s1 := Query.«end» s
  { s1 with mgr := Manager.cancelQuery s1.mgr qid }

/-- Embeds `Query.isResultAvailable()`.  `hwAvailable` is the value the
hardware returns for `GL_QUERY_RESULT_AVAILABLE`; the pair returned is the new
system state and the method's return value. -/
def Query.isResultAvailable (s : QuerySystem) (hwAvailable : Bool) :
    QuerySystem × Bool :=
  if s.q.queryPending then
    let s1 : QuerySystem :=
      { s with glCalls := s.glCalls ++ [GLCall.getQueryParameter GL_QUERY_RESULT_AVAILABLE] }
    if hwAvailable then
      ({ s1 with q := { s1.q with queryPending := false } }, true)
    else (s1, false)
  else (s, false)

/-- Embeds `Query.poll(gl)`, which delegates to `queryManager.poll(gl)`. -/
def Query.poll (m : Manager) (disjoint : Bool) : Manager × List CallbackEvent :=
  Manager.poll m disjoint

/-- A fresh Query system: no open interval, nothing pending, empty manager and
empty traces. -/
def sysFresh : QuerySystem :=
  { q := { target := none, queryPending := false }, mgr := { pending := [] },
    glCalls := [], events := [] }

/-- A Query system after a begin/end pair: result pending, unread. -/
def sysPending : QuerySystem :=
  { q := { target := none, queryPending := true }, mgr := { pending := [1] },
    glCalls := [], events := [] }

/-- A Query system with an open time-elapsed interval (begun, not ended). -/
def sysOpen : QuerySystem :=
  { q := { target := some GL_TIME_ELAPSED_EXT, queryPending := false },
    mgr := { pending := [1] }, glCalls := [], events := [] }

/-- C3: `begin` while `queryPending` is true returns the same Query object and
changes nothing: no state change, no manager call, no hardware call. -/
theorem Query.begin_pending_noop (qid : Nat) (s : QuerySystem) (target : Nat)
    (glThrows : Bool) (h : s.q.queryPending = true) :
    Query.begin qid s target glThrows = s := by
  simp [Query.begin, h]

/-- Witness for C3 at a concrete pending Query. -/
theorem Query.begin_pending_noop_witness :
    Query.begin 1 sysPending GL_TIME_ELAPSED_EXT false = sysPending :=
  Query.begin_pending_noop 1 sysPending GL_TIME_ELAPSED_EXT false rfl

/-- C4: `isResultAvailable` returns false immediately (no hardware call, state
untouched) when nothing is pending; when a result is pending it polls the
hardware availability flag, returns what the hardware reported, and on a
positive report clears `queryPending`, so any immediately following call
returns false. -/
theorem Query.isResultAvailable_spec (s : QuerySystem) (hw : Bool) :
    (s.q.queryPending = false → Query.isResultAvailable s hw = (s, false)) ∧
    (s.q.queryPending = true →
      (Query.isResultAvailable s hw).1.glCalls =
        s.glCalls ++ [GLCall.getQueryParameter GL_QUERY_RESULT_AVAILABLE] ∧
      (Query.isResultAvailable s hw).2 = hw ∧
      (hw = true →
        (Query.isResultAvailable s hw).1.q.queryPending = false ∧
        ∀ hw2, Query.isResultAvailable (Query.isResultAvailable s hw).1 hw2 =
          ((Query.isResultAvailable s hw).1, false))) := by
  refine ⟨fun h => by simp [Query.isResultAvailable, h], fun h => ?_⟩
  cases hw with
  | false => simp [Query.isResultAvailable, h]
  | true =>
      refine ⟨by simp [Query.isResultAvailable, h], by simp [Query.isResultAvailable, h], ?_⟩
      intro _
      refine ⟨by simp [Query.isResultAvailable, h], fun hw2 => ?_⟩
      simp [Query.isResultAvailable, h]

/-- Witness for C4: a pending Query whose hardware reports availability
returns true once and false on the immediately following call. -/
theorem Query.isResultAvailable_spec_witness :
    (Query.isResultAvailable sysPending true).2 = true ∧
    Query.isResultAvailable (Query.isResultAvailable sysPending true).1 true =
      ((Query.isResultAvailable sysPending true).1, false) :=
  ⟨((Query.isResultAvailable_spec sysPending true).2 rfl).2.1,
    (((Query.isResultAvailable_spec sysPending true).2 rfl).2.2 rfl).2 true⟩

/-- C5: with `queryPending` false, `end()` with no open interval changes
nothing (in particular `queryPending` stays false); with an open interval it
issues the hardware end call, clears `target` and sets `queryPending`; in both
cases the manager state (its pending entry) is untouched. -/
theorem Query.end_spec (s : QuerySystem) (h : s.q.queryPending = false) :
    (s.q.target = none → Query.«end» s = s) ∧
    (∀ t, s.q.target = some t →
      Query.«end» s =
        { q := { target := none, queryPending := true },
          mgr := s.mgr,
          glCalls := s.glCalls ++ [GLCall.endQuery t],
          events := s.events }) := by
  constructor
  · intro ht
    simp [Query.«end», h, ht]
  · intro t ht
    simp [Query.«end», h, ht]

/-- Witness for C5: `end()` on a fresh Query is the identity, and `end()` on a
Query with an open time-elapsed interval ends it. -/
theorem Query.end_spec_witness :
    Query.«end» sysFresh = sysFresh ∧
    Query.«end» sysOpen =
      { q := { target := none, queryPending := true },
        mgr := sysOpen.mgr,
        glCalls := sysOpen.glCalls ++ [GLCall.endQuery GL_TIME_ELAPSED_EXT],
        events := sysOpen.events } :=
  ⟨(Query.end_spec sysFresh rfl).1 rfl,
    (Query.end_spec sysOpen rfl).2 GL_TIME_ELAPSED_EXT rfl⟩

/-- C6: `cancel()` on a Query with an open interval performs `end()` (the
hardware end call is issued, `target` cleared) and then removes the Query's
entry from the manager's pending set; no onComplete or onError event is
emitted. -/
theorem Query.cancel_spec (qid : Nat) (s : QuerySystem) (t : Nat)
    (h1 : s.q.target = some t) (h2 : s.q.queryPending = false) :
    Query.cancel qid s =
      { q := { target := none, queryPending := true },
        mgr := Manager.cancelQuery s.mgr qid,
        glCalls := s.glCalls ++ [GLCall.endQuery t],
        events := s.events } := by
  simp [Query.cancel, Query.«end», h1, h2]

/-- Witness for C6 on a concrete open-interval Query. -/
theorem Query.cancel_spec_witness :
    Query.cancel 1 sysOpen =
      { q := { target := none, queryPending := true },
        mgr := Manager.cancelQuery sysOpen.mgr 1,
        glCalls := sysOpen.glCalls ++ [GLCall.endQuery GL_TIME_ELAPSED_EXT],
        events := sysOpen.events } :=
  Query.cancel_spec 1 sysOpen GL_TIME_ELAPSED_EXT rfl rfl

/-- C2 counterexample: a second `begin` on a Query whose interval is still
open (begun, not ended) is not a no-op — it issues a new hardware begin call,
because `begin` only guards on `queryPending`, which `begin` never sets. -/
theorem Query.begin_twice_counterexample :
    (Query.begin 1 (Query.begin 1 sysFresh GL_TIME_ELAPSED_EXT false)
        GL_TIME_ELAPSED_EXT false).glCalls ≠
      (Query.begin 1 sysFresh GL_TIME_ELAPSED_EXT false).glCalls := by
  decide

/-- C2 amended: a second `begin(target)` before `end` (so `queryPending` is
still false) re-runs the begin path: it re-registers the Query with the
manager (preempting the prior pending entry), sets `target` to the newly
requested target (hence the target remains time-elapsed when re-begun with
the same target), and issues a new hardware begin call; `begin` is a no-op
only while `queryPending` is true. -/
theorem Query.begin_not_pending (qid : Nat) (s : QuerySystem) (target : Nat)
    (h : s.q.queryPending = false) :
    Query.begin qid s target false =
      { q := { target := some target, queryPending := false },
        mgr := Manager.beginQuery s.mgr qid,
        glCalls := s.glCalls ++ [GLCall.beginQuery target],
        events := s.events } := by
  simp [Query.begin, h]

/-- Witness for the amended C2: the second `begin` on an open-interval Query
re-registers and issues a fresh hardware call. -/
theorem Query.begin_not_pending_witness :
    Query.begin 1 sysOpen GL_TIME_ELAPSED_EXT false =
      { q := { target := some GL_TIME_ELAPSED_EXT, queryPending := false },
        mgr := Manager.beginQuery sysOpen.mgr 1,
        glCalls := sysOpen.glCalls ++ [GLCall.beginQuery GL_TIME_ELAPSED_EXT],
        events := sysOpen.events } :=
  Query.begin_not_pending 1 sysOpen GL_TIME_ELAPSED_EXT rfl

/-- Counting an error event in the event list produced by mapping the error
constructor over a list of query ids counts the id itself. -/
theorem count_map_error (l : List Nat) (q : Nat) (msg : String) :
    (l.map (fun x => CallbackEvent.error x msg)).count (CallbackEvent.error q msg) =
      l.count q := by
  induction l with
  | nil => rfl
  | cons a t ih =>
      simp only [List.map_cons, List.count_cons, ih]
      by_cases hx : a = q
      · simp [hx]
      · simp [hx]

/-- C1: when the poll's destructive read of the GPU disjoint flag returns
true, every query that was pending before the poll has its onError invoked
exactly once with the registered disjoint message and the pending set is
emptied; a subsequent poll with the disjoint flag false invokes no
callbacks. -/
theorem Query.poll_disjoint_spec (m : Manager) (h : m.pending.Nodup) :
    (Query.poll m true).1.pending = [] ∧
    (∀ qid ∈ m.pending,
      ((Query.poll m true).2.count (CallbackEvent.error qid ERR_GPU_DISJOINT) = 1 ∧
        qid ∉ (Query.poll m true).1.pending)) ∧
    Query.poll (Query.poll m true).1 false = ((Query.poll m true).1, []) := by
  refine ⟨rfl, fun qid hq => ⟨?_, by simp [Query.poll, Manager.poll]⟩, rfl⟩
  show ((m.pending.map (fun x => CallbackEvent.error x ERR_GPU_DISJOINT)).count
    (CallbackEvent.error qid ERR_GPU_DISJOINT)) = 1
  rw [count_map_error]
  exact List.count_eq_one_of_mem h hq

/-- Witness for C1 with two pending queries. -/
theorem Query.poll_disjoint_spec_witness :
    (Query.poll { pending := [1, 2] } true).1.pending = [] ∧
    (∀ qid ∈ ({ pending := [1, 2] } : Manager).pending,
      ((Query.poll { pending := [1, 2] } true).2.count
          (CallbackEvent.error qid ERR_GPU_DISJOINT) = 1 ∧
        qid ∉ (Query.poll { pending := [1, 2] } true).1.pending)) ∧
    Query.poll (Query.poll { pending := [1, 2] } true).1 false =
      ((Query.poll { pending := [1, 2] } true).1, []) :=
  Query.poll_disjoint_spec { pending := [1, 2] } (by decide)

/-- The per-query hardware interface used by result reads: the raw counter
value the context reports for `GL_QUERY_RESULT` (nanoseconds for timer
queries), modelled over the rationals. -/
structure QueryHardware where
  queryResult : ℚ

/-- Embeds `Query.getResult()`: reads the raw counter value from the
hardware. -/
def Query.getResult (hw : QueryHardware) : ℚ :=
  hw.queryResult

/-- Embeds `Query.getTimerMilliseconds()`: the raw result divided by 1e6. -/
def Query.getTimerMilliseconds (hw : QueryHardware) : ℚ :=
  Query.getResult hw / 1000000

/-- C8: for every hardware counter value, `getTimerMilliseconds()` is exactly
`getResult()` divided by 1e6 — a pure unit conversion with no other
transformation. -/
theorem Query.getTimerMilliseconds_spec (hw : QueryHardware) :
    Query.getTimerMilliseconds hw = Query.getResult hw / 10 ^ 6 :=
  rfl

/-- Observable state of an AnimationLoop relevant to redraw scheduling:
`needsRedraw` is null or the reason string recorded for the pending redraw. -/
structure AnimationLoopState where
  needsRedraw : Option String
deriving DecidableEq

/-- JavaScript truthiness of the `needsRedraw` field: `null` and the empty
string are falsy, every other string is truthy. -/
def jsTruthyString : Option String → Bool
  | none => false
  | some s => s != ""

/-- Embeds `AnimationLoop.setNeedsRedraw(reason)`: asserts the reason is a
string (guaranteed by the embedding's type) and evaluates
`this.needsRedraw = this.needsRedraw || reason` with JavaScript truthiness,
returning the updated loop (the source returns `this`). -/
def AnimationLoop.setNeedsRedraw (st : AnimationLoopState) (reason : String) :
    AnimationLoopState :=
  { st with needsRedraw :=
      if jsTruthyString st.needsRedraw then st.needsRedraw else some reason }

/-- Embeds `AnimationLoop._clearNeedsRedraw()`: resets `needsRedraw` to null. -/
def AnimationLoop.clearNeedsRedraw (st : AnimationLoopState) : AnimationLoopState :=
  { st with needsRedraw := none }

/-- C9 counterexample: with `needsRedraw` holding the non-null (but empty,
hence JavaScript-falsy) string, a later `setNeedsRedraw` replaces it, so the
first reason is not retained. -/
theorem AnimationLoop.setNeedsRedraw_empty_counterexample :
    AnimationLoop.setNeedsRedraw { needsRedraw := some "" } "redrawn" ≠
      { needsRedraw := some "" } := by
  decide

/-- C9 amended: when `needsRedraw` already holds a truthy (non-null,
non-empty) reason string, any later `setNeedsRedraw` call leaves the loop
entirely unchanged (the first reason is retained and the same object is
returned), so `setNeedsRedraw` is idempotent and absorbing. -/
theorem AnimationLoop.setNeedsRedraw_absorbing (st : AnimationLoopState)
    (reason2 : String) (h : jsTruthyString st.needsRedraw = true) :
    AnimationLoop.setNeedsRedraw st reason2 = st := by
  simp [AnimationLoop.setNeedsRedraw, h]

/-- Witness for the amended C9 with a concrete non-empty first reason. -/
theorem AnimationLoop.setNeedsRedraw_absorbing_witness :
    AnimationLoop.setNeedsRedraw { needsRedraw := some "view changed" } "tick" =
      { needsRedraw := some "view changed" } :=
  AnimationLoop.setNeedsRedraw_absorbing { needsRedraw := some "view changed" }
    "tick" (by decide)

/-- Capabilities of a GL context consumed by `Query.isSupported`: whether the
context is WebGL2, whether the timer-query feature is present, and the value
`gl.getQuery(GL_TIMESTAMP_EXT, GL_QUERY_COUNTER_BITS_EXT)` reports. -/
structure GLCaps where
  webgl2 : Bool
  hasTimerQuery : Bool
  timestampCounterBits : Int
deriving DecidableEq

/-- The capability keys the `isSupported` switch recognizes; any other key
reaches the `default: assert(false)` arm. -/
abbrev recognizedCapability (key : String) : Prop :=
  key = "queries" ∨ key = "timers" ∨ key = "timestamps"

/-- Embeds the `for (const key of opts) switch (key)` loop of
`Query.isSupported`; `none` is the assertion failure thrown by the
`default` arm. -/
def isSupportedLoop (gl : GLCaps) : List String → Bool → Option Bool
  | [], supported => some supported
  | key :: rest, supported =>
    if key = "queries" then
      isSupportedLoop gl rest (supported && gl.webgl2)
    else if key = "timers" then
      isSupportedLoop gl rest (supported && gl.hasTimerQuery)
    else if key = "timestamps" then
      isSupportedLoop gl rest
        (supported && decide (0 < (if gl.hasTimerQuery then gl.timestampCounterBits else 0)))
    else none

/-- Embeds `Query.isSupported(gl, opts)`: starts from
`webgl2 || hasTimerQuery` and narrows per requested capability. -/
def Query.isSupported (gl : GLCaps) (opts : List String) : Option Bool :=
  isSupportedLoop gl opts (gl.webgl2 || gl.hasTimerQuery)

/-- If every key is recognized the loop never asserts, the result only
narrows the accumulator, and a true result with `timestamps` requested
implies a positive counter bit width. -/
theorem isSupportedLoop_recognized (gl : GLCaps) (opts : List String) :
    ∀ s : Bool, (∀ k ∈ opts, recognizedCapability k) →
      ∃ b, isSupportedLoop gl opts s = some b ∧ (b = true → s = true) ∧
        (b = true → "timestamps" ∈ opts →
          0 < (if gl.hasTimerQuery then gl.timestampCounterBits else 0)) := by
  induction opts with
  | nil =>
      intro s _
      exact ⟨s, rfl, fun hb => hb, fun _ hmem => absurd hmem (List.not_mem_nil _)⟩
  | cons key rest ih =>
      intro s hrec
      have hkey : recognizedCapability key := hrec key (List.mem_cons_self _ _)
      have hrest : ∀ k ∈ rest, recognizedCapability k := fun k hk =>
        hrec k (List.mem_cons_of_mem _ hk)
      rcases hkey with hk | hk | hk <;> subst hk
      · obtain ⟨b, hb, hnarrow, hts⟩ := ih (s && gl.webgl2) hrest
        refine ⟨b, by simpa [isSupportedLoop] using hb, ?_, ?_⟩
        · intro h1
          exact (Bool.and_eq_true _ _ |>.mp (hnarrow h1)).1
        · intro h1 hmem
          rcases List.mem_cons.mp hmem with h | h
          · exact absurd h (by decide)
          · exact hts h1 h
      · obtain ⟨b, hb, hnarrow, hts⟩ := ih (s && gl.hasTimerQuery) hrest
        refine ⟨b, by simpa [isSupportedLoop] using hb, ?_, ?_⟩
        · intro h1
          exact (Bool.and_eq_true _ _ |>.mp (hnarrow h1)).1
        · intro h1 hmem
          rcases List.mem_cons.mp hmem with h | h
          · exact absurd h (by decide)
          · exact hts h1 h
      · obtain ⟨b, hb, hnarrow, hts⟩ :=
          ih (s && decide (0 < (if gl.hasTimerQuery then gl.timestampCounterBits else 0))) hrest
        refine ⟨b, by simpa [isSupportedLoop] using hb, ?_, ?_⟩
        · intro h1
          exact (Bool.and_eq_true _ _ |>.mp (hnarrow h1)).1
        · intro h1 _
          exact of_decide_eq_true (Bool.and_eq_true _ _ |>.mp (hnarrow h1)).2

/-- A list containing any unrecognized capability key makes the loop hit the
assertion (`none`), whatever the accumulator. -/
theorem isSupportedLoop_unrecognized (gl : GLCaps) (opts : List String) :
    ∀ s : Bool, ∀ k ∈ opts, ¬ recognizedCapability k →
      isSupportedLoop gl opts s = none := by
  induction opts with
  | nil =>
      intro s k hk
      cases hk
  | cons key rest ih =>
      intro s k hk hnr
      by_cases h1 : key = "queries"
      · rcases List.mem_cons.mp hk with h | h
        · exact absurd (Or.inl (h.trans h1)) hnr
        · subst h1
          simpa [isSupportedLoop] using ih _ k h hnr
      · by_cases h2 : key = "timers"
        · rcases List.mem_cons.mp hk with h | h
          · exact absurd (Or.inr (Or.inl (h.trans h2))) hnr
          · subst h2
            simpa [isSupportedLoop] using ih _ k h hnr
        · by_cases h3 : key = "timestamps"
          · rcases List.mem_cons.mp hk with h | h
            · exact absurd (Or.inr (Or.inr (h.trans h3))) hnr
            · subst h3
              simpa [isSupportedLoop] using ih _ k h hnr
          · simp [isSupportedLoop, h1, h2, h3]

/-- C7: every list of recognized capability keys is processed without any
throw, the result only narrows the initial support value, and a true result
with `timestamps` requested implies a positive counter bit width; any list
containing an unrecognized capability key triggers the assertion failure
instead of returning false. -/
theorem Query.isSupported_spec (gl : GLCaps) (opts : List String) :
    ((∀ k ∈ opts, recognizedCapability k) →
      ∃ b, Query.isSupported gl opts = some b ∧
        (b = true → (gl.webgl2 || gl.hasTimerQuery) = true) ∧
        (b = true → "timestamps" ∈ opts →
          0 < (if gl.hasTimerQuery then gl.timestampCounterBits else 0))) ∧
    (∀ k ∈ opts, ¬ recognizedCapability k → Query.isSupported gl opts = none) := by
  constructor
  · intro hrec
    exact isSupportedLoop_recognized gl opts _ hrec
  · intro k hk hnr
    exact isSupportedLoop_unrecognized gl opts _ k hk hnr

/-- Witness for C7: all three recognized keys pass without a throw on a fully
capable context, and an unknown key asserts. -/
theorem Query.isSupported_spec_witness :
    (∃ b, Query.isSupported ⟨true, true, 46⟩ ["queries", "timers", "timestamps"] = some b ∧
      (b = true →
        (GLCaps.webgl2 ⟨true, true, 46⟩ || GLCaps.hasTimerQuery ⟨true, true, 46⟩) = true) ∧
      (b = true → "timestamps" ∈ ["queries", "timers", "timestamps"] →
        0 < (if GLCaps.hasTimerQuery ⟨true, true, 46⟩
          then GLCaps.timestampCounterBits ⟨true, true, 46⟩ else 0))) ∧
    Query.isSupported ⟨true, true, 46⟩ ["frobnicate"] = none := by
  constructor
  · exact (Query.isSupported_spec ⟨true, true, 46⟩ ["queries", "timers", "timestamps"]).1
      (by decide)
  · exact (Query.isSupported_spec ⟨true, true, 46⟩ ["frobnicate"]).2 "frobnicate"
      (by decide) (by decide)

/-- An argument to `Group.add(...children)`: either a Node (identified by an
id) or an arbitrarily nested array of such arguments. -/
inductive NodeArg where
  | node (id : Nat)
  | arr (elems : List NodeArg)

/-- State of a Group relevant to child management: its `children` list. -/
structure GroupState where
  children : List Nat
deriving DecidableEq

/-- Embeds `Group.add(...children)`: for each argument in order, a nested
array is recursively added (`this.add(...child)`) and a Node is pushed onto
`this.children`; returns the updated group (the source returns `this`). -/
def Group.add (g : GroupState) : List NodeArg → GroupState
  | [] => g
  | NodeArg.node n :: rest => Group.add { g with children := g.children ++ [n] } rest
  | NodeArg.arr xs :: rest => Group.add (Group.add g xs) rest
termination_by args => sizeOf args
decreasing_by
  all_goals simp_wf
  all_goals omega

/-- The non-array leaf nodes of an argument list in depth-first
left-to-right order. -/
def flattenArgs : List NodeArg → List Nat
  | [] => []
  | NodeArg.node n :: rest => n :: flattenArgs rest
  | NodeArg.arr xs :: rest => flattenArgs xs ++ flattenArgs rest
termination_by args => sizeOf args
decreasing_by
  all_goals simp_wf
  all_goals omega

/-- Strong-induction core for the `Group.add` characterization: bounding the
size of the argument list lets both the tail and the nested-array recursions
use the induction hypothesis. -/
theorem Group.add_eq_aux :
    ∀ bound : Nat, ∀ args : List NodeArg, sizeOf args ≤ bound → ∀ g : GroupState,
      Group.add g args = { children := g.children ++ flattenArgs args } := by
  intro bound
  induction bound with
  | zero =>
      intro args hargs g
      exfalso
      cases args with
      | nil => simp at hargs
      | cons a rest =>
          simp only [List.cons.sizeOf_spec] at hargs
          omega
  | succ n ih =>
      intro args hargs g
      match args with
      | [] => simp [Group.add, flattenArgs]
      | NodeArg.node m :: rest =>
          have hsz : sizeOf rest ≤ n := by
            simp at hargs; omega
          rw [Group.add, flattenArgs, ih rest hsz]
          simp
      | NodeArg.arr xs :: rest =>
          have hszx : sizeOf xs ≤ n := by
            simp at hargs; omega
          have hszr : sizeOf rest ≤ n := by
            simp at hargs; omega
          rw [Group.add, flattenArgs, ih xs hszx, ih rest hszr]
          simp

/-- C10: `add` appends exactly the non-array leaf nodes of its (arbitrarily
nested) argument list to the group's children, depth-first left-to-right,
keeping the previously present children in place, and returns the group. -/
theorem Group.add_spec (g : GroupState) (args : List NodeArg) :
    Group.add g args = { children := g.children ++ flattenArgs args } :=
  Group.add_eq_aux (sizeOf args) args le_rfl g
